import Mathlib

/-!
Verification of the DME/CDFA descent planner core (src/app.py) against its
natural-language specification.

Modelling conventions:
* Python floats are modelled by exact rationals; the integer-valued inputs
  (threshold elevation, MDA, top-of-descent altitude, step-down-fix altitudes,
  which Streamlit returns as Python ints) are modelled by integers.
* Python's round() (round half to even, "banker's rounding") is modelled by rhe.
* The labels "FAF" / "SDF{i+1}" / "MAPt" / "THR" / "" are modelled by the
  inductive type Label (Label.sdf n models the string "SDF{n}").
* The dict comprehension on line 46 of app.py (deduplication by distance rounded
  to two decimals, insertion-ordered keys, last write wins) is modelled by the
  association-list fold uniqueFixes.
* numpy float division by zero produces inf/NaN, which has no rational
  counterpart; the rate-of-descent value is therefore modelled as an Option that
  is none exactly when the time denominator is zero (app.py has no guard).
-/

namespace DmeCdfa

/-- Python round-half-to-even on a rational, returning an integer.
    Off a tie the result agrees with rounding to the nearest integer;
    on a tie (fractional part exactly 1/2) the even neighbour is chosen. -/
def rhe (q : ℚ) : ℤ :=
  if 2 * q = 2 * ⌊q⌋ + 1 then (if 2 ∣ ⌊q⌋ then ⌊q⌋ else ⌊q⌋ + 1) else round q

/-- Python round(x, 2): round to two decimal places, half to even. -/
def round2 (q : ℚ) : ℚ := (rhe (q * 100) : ℚ) / 100

/-- Row labels of the DME table.  Label.sdf n models the string "SDF{n}"
    produced on line 28 of app.py; Label.empty models "". -/
inductive Label where
  | faf | mapt | thr | empty
  | sdf (n : ℕ)
deriving DecidableEq, Repr

/-- One fix dict, as built on lines 26-28 and 40-43 of app.py:
    {"Distance": _, "Altitude": _, "Label": _}. -/
structure Fix where
  distance : ℚ
  altitude : ℚ
  label : Label
deriving DecidableEq, Repr

/-- One row of the output DME table (line 75 of app.py):
    {"Distance (NM)": round(dme, 2), "Altitude (ft)": int(round(alt)), "Fix": label}. -/
structure Row where
  distance : ℚ
  altitude : ℤ
  label : Label
deriving DecidableEq, Repr

/-- The sidebar input snapshot of app.py (lines 14-28).  elevation, mda,
    tod_alt and the step-down-fix altitudes are Python ints; the DME
    distances are floats, modelled as rationals.  faf_mapt_distance (line 20)
    is only consumed by the ROD table and is passed to rodRows directly. -/
structure Params where
  elevation : ℤ
  mda : ℤ
  tod_alt : ℤ
  dme_thr : ℚ
  dme_faf : ℚ
  dme_mapt : ℚ
  sdfs : List (ℚ × ℤ)
deriving DecidableEq, Repr

/-- The NM-to-feet conversion constant 6076.12 used throughout app.py. -/
def nm2ft : ℚ := 6076.12

/-- The step-down-fix dicts of lines 25-28: entry number i (0-based) carries
    label "SDF{i+1}". -/
def mkSdfFixes : ℕ → List (ℚ × ℤ) → List Fix
  | _, [] => []
  | i, x :: r => ⟨x.1, (x.2 : ℚ), .sdf (i + 1)⟩ :: mkSdfFixes (i + 1) r

/-- The anchor list of lines 40-43: FAF, then the step-down fixes in input
    order, then MAPt, then THR. -/
def fixes0 (p : Params) : List Fix :=
  ⟨p.dme_faf, (p.tod_alt : ℚ), .faf⟩ ::
    mkSdfFixes 0 p.sdfs ++
      [⟨p.dme_mapt, (p.mda : ℚ), .mapt⟩, ⟨p.dme_thr, (p.elevation : ℚ), .thr⟩]

/-- One write into the dict {round(f["Distance"], 2): f} (line 46): if the key
    is already present its value is replaced in place, otherwise the pair is
    appended (Python dicts preserve first-insertion key order). -/
def upsert : List Fix → Fix → List Fix
  | [], f => [f]
  | a :: t, f =>
      if round2 a.distance = round2 f.distance then f :: t else a :: upsert t f

/-- Lines 46-47: deduplicate the fixes by distance rounded to two decimals,
    last-defined fix winning, keys in first-insertion order. -/
def uniqueFixes (l : List Fix) : List Fix := l.foldl upsert []

/-- The comparison used by fixes.sort(key=lambda x: -x["Distance"]) (line 48):
    descending by distance. -/
def distGe (a b : Fix) : Prop := b.distance ≤ a.distance

instance : DecidableRel distGe := fun a b =>
  inferInstanceAs (Decidable (b.distance ≤ a.distance))

/-- Lines 46-48: the deduplicated anchor list sorted by decreasing distance.
    After deduplication all distances are distinct, so any sort realizing the
    descending order yields the same list as Python's stable sort. -/
def sortedFixes (p : Params) : List Fix :=
  List.insertionSort distGe (uniqueFixes (fixes0 p))

/-- Line 52: start of the grid. -/
def gridStart (p : Params) : ℚ := p.dme_faf

/-- Line 53: end = max(dme_thr, dme_mapt). -/
def gridEnd (p : Params) : ℚ := max p.dme_thr p.dme_mapt

/-- Line 54: steps = int(abs(start - end)) + 1 (Python int() truncates the
    non-negative absolute value, i.e. takes the floor). -/
def steps (p : Params) : ℕ := (Int.floor |gridStart p - gridEnd p|).toNat + 1

/-- np.linspace(s, e, num = n): n evenly spaced points from s to e inclusive;
    a single point is s itself. -/
def linspace (s e : ℚ) : ℕ → List ℚ
  | 0 => []
  | 1 => [s]
  | n + 2 => (List.range (n + 2)).map (fun i : ℕ => s + (i : ℚ) * ((e - s) / ((n : ℚ) + 1)))

/-- Line 55: the grid of DME distances. -/
def dmePoints (p : Params) : List ℚ := linspace (gridStart p) (gridEnd p) (steps p)

/-- Lines 57-59: grid points outside [dme_thr, dme_faf] are skipped. -/
def keptPoints (p : Params) : List ℚ :=
  (dmePoints p).filter (fun d => decide (d ≤ p.dme_faf ∧ p.dme_thr ≤ d))

/-- Line 60: the first fix (in sorted order) within 0.01 NM of the grid point. -/
def matchingFix (p : Params) (dme : ℚ) : Option Fix :=
  (sortedFixes p).find? (fun f => decide (|f.distance - dme| < 1 / 100))

/-- Line 66: the first fix in descending order with distance >= dme. -/
def aboveFix (p : Params) (dme : ℚ) : Option Fix :=
  (sortedFixes p).find? (fun f => decide (dme ≤ f.distance))

/-- Line 67: the first fix in ascending order with distance <= dme. -/
def belowFix (p : Params) (dme : ℚ) : Option Fix :=
  (sortedFixes p).reverse.find? (fun f => decide (f.distance ≤ dme))

/-- Lines 60-73: the pre-clamp altitude and the label at a grid point: a
    matching fix provides both; otherwise linear interpolation between the
    above/below brackets when they exist and differ, else the threshold
    elevation, with an empty label. -/
def altLabelAt (p : Params) (dme : ℚ) : ℚ × Label :=
  match matchingFix p dme with
  | some f => (f.altitude, f.label)
  | none =>
    match aboveFix p dme, belowFix p dme with
    | some a, some b =>
        if a ≠ b then
          (b.altitude + (dme - b.distance) / (a.distance - b.distance) * (a.altitude - b.altitude),
            .empty)
        else ((p.elevation : ℚ), .empty)
    | some _, none => ((p.elevation : ℚ), .empty)
    | none, _ => ((p.elevation : ℚ), .empty)

/-- Lines 74-75: clamp to the MDA at or inside the MAPt distance, then build
    the display row (distance rounded to 2 decimals, altitude rounded to an
    integer). -/
def rowAt (p : Params) (dme : ℚ) : Row :=
  ⟨round2 dme,
    rhe (if dme ≤ p.dme_mapt then max (altLabelAt p dme).1 (p.mda : ℚ) else (altLabelAt p dme).1),
    (altLabelAt p dme).2⟩

/-- Lines 51-78: the DME table, one row per kept grid point, trimmed to at
    most 8 rows. -/
def dmeTable (p : Params) : List Row := ((keptPoints p).map (rowAt p)).take 8

/-- Line 84: the fixed ground-speed list in knots. -/
def gsList : List ℚ := [80, 100, 120, 140, 160]

/-- Lines 85 and 87: time from FAF to MAPt in minutes at ground speed gs:
    (d * 6076.12) / (gs * 6076.12 / 60). -/
def timeMinutes (d gs : ℚ) : ℚ := d * nm2ft / (gs * nm2ft / 60)

/-- Line 88: np.round(drop / time / 10) * 10.  numpy division by a zero time
    yields inf/NaN (app.py has no guard), which has no rational counterpart:
    the result is modelled as none exactly in that case. -/
def rodValue (drop time : ℚ) : Option ℤ :=
  if time = 0 then none else some (rhe (drop / time / 10) * 10)

/-- Lines 84-94: the ROD table rows (GS, ROD ft/min, time displayed rounded to
    two decimals) for the fixed ground-speed list, with altitude drop
    tod_alt - mda. -/
def rodRows (d : ℚ) (tod_alt mda : ℤ) : List (ℚ × Option ℤ × ℚ) :=
  gsList.map (fun gs =>
    (gs, rodValue ((tod_alt - mda : ℤ) : ℚ) (timeMinutes d gs), round2 (timeMinutes d gs)))

/-- Line 31: horizontal distance FAF-to-threshold converted to feet. -/
def horizontalFt (dme_faf dme_thr : ℚ) : ℚ := (dme_faf - dme_thr) * nm2ft

/-- Line 32: vertical drop from top of descent to threshold elevation. -/
def verticalFt (tod_alt elevation : ℤ) : ℤ := tod_alt - elevation

/-- Line 33: math.sqrt(horizontal_ft ** 2 + vertical_ft ** 2).  Computed by
    app.py but never used afterwards. -/
noncomputable def slant_distance (h v : ℚ) : ℝ :=
  Real.sqrt ((h : ℝ) ^ 2 + (v : ℝ) ^ 2)

/-- Line 34: math.degrees(math.atan(vertical_ft / horizontal_ft)) when
    horizontal_ft is truthy (nonzero), else 0. -/
noncomputable def gp_angle_deg (v h : ℚ) : ℝ :=
  if h = 0 then 0 else Real.arctan ((v : ℝ) / (h : ℝ)) * (180 / Real.pi)

/-- Line 35: (vertical_ft / horizontal_ft) * 100 when horizontal_ft is truthy
    (nonzero), else 0. -/
def descent_gradient (v h : ℚ) : ℚ :=
  if h = 0 then 0 else v / h * 100

/-- Modelled from the spec (claim C8): the slant-range-corrected angle the
    specification asserts is computed, i.e. the glide-path angle formula with
    the true slant distance sqrt(horizontal^2 + vertical^2) in place of the
    horizontal distance.  app.py does not compute this. -/
noncomputable def gp_angle_deg_slant (v h : ℚ) : ℝ :=
  Real.arctan ((v : ℝ) / slant_distance h v) * (180 / Real.pi)

/-! ### Basic facts about the rounding functions -/

/-- Round-half-even of an integer is the integer itself. -/
theorem rhe_intCast (n : ℤ) : rhe (n : ℚ) = n := by
  unfold rhe
  rw [Int.floor_intCast, round_intCast]
  norm_num

/-- Round-half-even never goes below an integer lower bound. -/
theorem le_rhe_of_le (n : ℤ) (q : ℚ) (h : (n : ℚ) ≤ q) : n ≤ rhe q := by
  unfold rhe
  split
  · rename_i ht
    have hq : q = (⌊q⌋ : ℚ) + 1 / 2 := by linarith
    have hn : n ≤ ⌊q⌋ := by
      by_contra hc
      push_neg at hc
      have h1 : ((⌊q⌋ : ℚ) + 1) ≤ (n : ℚ) := by exact_mod_cast hc
      linarith
    split
    · exact hn
    · omega
  · rw [round_eq, Int.le_floor]
    linarith

/-- Round-half-even moves its argument by at most one half. -/
theorem abs_rhe_sub_le (q : ℚ) : |(rhe q : ℚ) - q| ≤ 1 / 2 := by
  unfold rhe
  split
  · rename_i ht
    split <;> (rw [abs_le]; push_cast; constructor <;> linarith)
  · rw [abs_sub_comm]
    exact abs_sub_round q

/-- Rounding to two decimals moves the value by at most 1/200. -/
theorem abs_round2_sub_le (q : ℚ) : |round2 q - q| ≤ 1 / 200 := by
  unfold round2
  have h := abs_rhe_sub_le (q * 100)
  have h2 : ((rhe (q * 100) : ℚ) / 100 - q) = ((rhe (q * 100) : ℚ) - q * 100) / 100 := by
    ring
  rw [h2, abs_div, show |(100 : ℚ)| = 100 by norm_num,
    div_le_iff₀ (by norm_num : (0 : ℚ) < 100), abs_le]
  rw [abs_le] at h
  constructor <;> linarith [h.1, h.2]

/-- Rounding to two decimals preserves strict order across a unit gap. -/
theorem round2_lt_round2 {x y : ℚ} (h : y + 1 ≤ x) : round2 y < round2 x := by
  have hx := abs_round2_sub_le x
  have hy := abs_round2_sub_le y
  rw [abs_le] at hx hy
  linarith [hx.1, hx.2, hy.1, hy.2]

/-! ### Evaluation helpers

Rational arithmetic does not reduce definitionally (Nat.gcd is defined by
well-founded recursion), so concrete runs of the pipeline are evaluated by
rewriting with the following lemmas and discharging the numeric side
conditions with norm_num. -/

/-- find? with a decidable predicate, head satisfying. -/
theorem findD_cons_pos {α : Type} (P : α → Prop) [DecidablePred P] (a : α) (l : List α)
    (h : P a) : List.find? (fun x => decide (P x)) (a :: l) = some a :=
  List.find?_cons_of_pos _ (decide_eq_true h)

/-- find? with a decidable predicate, head failing. -/
theorem findD_cons_neg {α : Type} (P : α → Prop) [DecidablePred P] (a : α) (l : List α)
    (h : ¬P a) :
    List.find? (fun x => decide (P x)) (a :: l) = List.find? (fun x => decide (P x)) l :=
  List.find?_cons_of_neg _ (by simp [h])

/-- find? skips an element that fails the predicate, wherever it sits. -/
theorem findD_middle_skip {α : Type} (P : α → Prop) [DecidablePred P]
    (l1 l2 : List α) (a : α) (h : ¬P a) :
    List.find? (fun x => decide (P x)) (l1 ++ a :: l2) =
      List.find? (fun x => decide (P x)) (l1 ++ l2) := by
  induction l1 with
  | nil => exact findD_cons_neg _ _ _ h
  | cons b t ih =>
    show List.find? _ (b :: (t ++ a :: l2)) = List.find? _ (b :: (t ++ l2))
    by_cases hb : P b
    · rw [findD_cons_pos _ _ _ hb, findD_cons_pos _ _ _ hb]
    · rw [findD_cons_neg _ _ _ hb, findD_cons_neg _ _ _ hb]
      exact ih

/-- filter with a decidable predicate, head kept. -/
theorem filterD_cons_pos {α : Type} (P : α → Prop) [DecidablePred P] (a : α) (l : List α)
    (h : P a) :
    List.filter (fun x => decide (P x)) (a :: l) =
      a :: List.filter (fun x => decide (P x)) l := by
  simp [List.filter_cons, h]

/-- filter with a decidable predicate, head dropped. -/
theorem filterD_cons_neg {α : Type} (P : α → Prop) [DecidablePred P] (a : α) (l : List α)
    (h : ¬P a) :
    List.filter (fun x => decide (P x)) (a :: l) = List.filter (fun x => decide (P x)) l := by
  simp [List.filter_cons, h]

/-- np.linspace with two points: the endpoints. -/
theorem linspace_two (s e : ℚ) : linspace s e 2 = [s, e] := by
  show (List.range 2).map (fun i => s + (i : ℚ) * ((e - s) / ((0 : ℕ) + 1))) = _
  rw [show List.range 2 = [0, 1] from rfl]
  norm_num

/-- np.linspace with three points. -/
theorem linspace_three (s e : ℚ) : linspace s e 3 = [s, s + (e - s) / 2, e] := by
  show (List.range 3).map (fun i => s + (i : ℚ) * ((e - s) / ((1 : ℕ) + 1))) = _
  rw [show List.range 3 = [0, 1, 2] from rfl]
  norm_num
  ring

/-- np.linspace with five points. -/
theorem linspace_five (s e : ℚ) :
    linspace s e 5 =
      [s, s + (e - s) / 4, s + 2 * ((e - s) / 4), s + 3 * ((e - s) / 4), e] := by
  show (List.range 5).map (fun i => s + (i : ℚ) * ((e - s) / ((3 : ℕ) + 1))) = _
  rw [show List.range 5 = [0, 1, 2, 3, 4] from rfl]
  norm_num
  ring

/-- A row whose grid point matches a fix within 0.01 NM. -/
theorem rowAt_matched (p : Params) (dme : ℚ) (f : Fix)
    (hm : matchingFix p dme = some f) :
    rowAt p dme =
      ⟨round2 dme,
        rhe (if dme ≤ p.dme_mapt then max f.altitude (p.mda : ℚ) else f.altitude),
        f.label⟩ := by
  unfold rowAt altLabelAt
  rw [hm]

/-- A row with no matching fix, interpolated between the above/below brackets. -/
theorem rowAt_interp (p : Params) (dme : ℚ) (a b : Fix)
    (hm : matchingFix p dme = none) (ha : aboveFix p dme = some a)
    (hb : belowFix p dme = some b) (hab : a ≠ b) :
    rowAt p dme =
      ⟨round2 dme,
        rhe (if dme ≤ p.dme_mapt then
            max (b.altitude + (dme - b.distance) / (a.distance - b.distance) *
              (a.altitude - b.altitude)) (p.mda : ℚ)
          else b.altitude + (dme - b.distance) / (a.distance - b.distance) *
            (a.altitude - b.altitude)),
        .empty⟩ := by
  unfold rowAt altLabelAt
  rw [hm, ha, hb]
  simp [hab]

/-! ### Claim C1: the MDA floor at or inside the MAPt distance -/

/-- Input refuting claim C1 as stated: the threshold anchor lies 0.0039 NM
    beyond the MAPt distance, so its altitude is not clamped, yet its
    displayed distance rounds down to a value at or below the MAPt distance. -/
def pC1 : Params := ⟨150, 450, 2000, 1.2049, 3, 1.201, []⟩

/-- The deduplicated, sorted anchors of pC1: the MAPt anchor (rounded
    distance 1.20) is overwritten by the THR anchor (rounded distance 1.20). -/
theorem pC1_sortedFixes :
    sortedFixes pC1 = [⟨3, 2000, .faf⟩, ⟨1.2049, 150, .thr⟩] := by
  rw [sortedFixes,
    show fixes0 pC1 = [⟨3, 2000, .faf⟩, ⟨1.201, 450, .mapt⟩, ⟨1.2049, 150, .thr⟩] from rfl,
    show uniqueFixes [⟨3, 2000, .faf⟩, ⟨1.201, 450, .mapt⟩, ⟨1.2049, 150, .thr⟩] =
        [⟨3, 2000, .faf⟩, ⟨1.2049, 150, .thr⟩] by
      norm_num [uniqueFixes, upsert, round2, rhe, round_eq]]
  norm_num [List.insertionSort, List.orderedInsert, distGe]

/-- The kept grid points of pC1. -/
theorem pC1_keptPoints : keptPoints pC1 = [3, 1.2049] := by
  rw [keptPoints, dmePoints,
    show gridEnd pC1 = 1.2049 by rw [gridEnd]; norm_num [pC1, max_def],
    show gridStart pC1 = 3 from rfl,
    show steps pC1 = 2 by
      rw [steps, show gridStart pC1 = 3 from rfl,
        show gridEnd pC1 = 1.2049 by rw [gridEnd]; norm_num [pC1, max_def],
        show |(3 : ℚ) - 1.2049| = 1.7951 by rw [abs_of_pos] <;> norm_num,
        show Int.floor (1.7951 : ℚ) = 1 by norm_num]
      rfl,
    linspace_two,
    filterD_cons_pos _ _ _ (by norm_num [pC1]),
    filterD_cons_pos _ _ _ (by norm_num [pC1]),
    List.filter_nil]

/-- Claim C1 is false as stated: for the input pC1 the last table row has
    displayed distance 1.2 <= maptDistance 1.201 but altitude 150 < mdaFt 450
    (the clamp on line 74 of app.py tests the exact grid distance 1.2049,
    which exceeds the MAPt distance, so the THR elevation is not clamped). -/
theorem c1_counterexample :
    (dmeTable pC1)[1]? = some ⟨1.2, 150, .thr⟩ ∧
    (1.2 : ℚ) ≤ pC1.dme_mapt ∧ (150 : ℤ) < pC1.mda := by
  have hr0 : rowAt pC1 3 = ⟨3, 2000, .faf⟩ := by
    rw [rowAt_matched _ _ _ (by
      rw [matchingFix, pC1_sortedFixes,
        findD_cons_pos _ _ _ (by norm_num [abs_of_pos, abs_of_neg])])]
    norm_num [round2, rhe, round_eq, pC1]
  have hr1 : rowAt pC1 1.2049 = ⟨1.2, 150, .thr⟩ := by
    rw [rowAt_matched _ _ _ (by
      rw [matchingFix, pC1_sortedFixes,
        findD_cons_neg _ _ _ (by norm_num [abs_of_pos, abs_of_neg]),
        findD_cons_pos _ _ _ (by norm_num [abs_of_pos, abs_of_neg])])]
    norm_num [round2, rhe, round_eq, pC1]
  have htab : dmeTable pC1 = [⟨3, 2000, .faf⟩, ⟨1.2, 150, .thr⟩] := by
    rw [dmeTable, pC1_keptPoints, List.map_cons, List.map_cons, List.map_nil, hr0, hr1]
    rfl
  refine ⟨by rw [htab]; simp, by norm_num [pC1], by norm_num [pC1]⟩

/-- Claim C1 amended: every row of the DME table whose exact grid distance
    (before display rounding) is at or below the MAPt distance has altitude
    at least mdaFt.  The table is the image of rowAt over the kept grid
    points, so this covers every row. -/
theorem c1_mda_floor (p : Params) (dme : ℚ) (h : dme ≤ p.dme_mapt) :
    p.mda ≤ (rowAt p dme).altitude := by
  have hrow : (rowAt p dme).altitude =
      rhe (if dme ≤ p.dme_mapt then max (altLabelAt p dme).1 (p.mda : ℚ)
        else (altLabelAt p dme).1) := rfl
  rw [hrow, if_pos h]
  exact le_rhe_of_le _ _ (le_max_right _ _)

/-- Witness for c1_mda_floor at the default inputs of app.py, at the MAPt
    grid point itself. -/
theorem c1_mda_floor_witness :
    (1.2 : ℚ) ≤ (⟨150, 450, 2000, 0.5, 6, 1.2, []⟩ : Params).dme_mapt ∧
    (⟨150, 450, 2000, 0.5, 6, 1.2, []⟩ : Params).mda ≤
      (rowAt ⟨150, 450, 2000, 0.5, 6, 1.2, []⟩ (1.2 : ℚ)).altitude :=
  ⟨by norm_num, c1_mda_floor ⟨150, 450, 2000, 0.5, 6, 1.2, []⟩ (1.2 : ℚ) (by norm_num)⟩

/-! ### Claim C2: table length and strictly decreasing distances -/

/-- When the grid descends, consecutive grid points are at least 1 NM apart:
    the spacing is (start - end) / floor(start - end). -/
theorem pairwise_dmePoints (p : Params) (h : gridEnd p < gridStart p) :
    (dmePoints p).Pairwise (fun x y => y + 1 ≤ x) := by
  unfold dmePoints steps
  rw [abs_of_pos (by linarith : (0 : ℚ) < gridStart p - gridEnd p)]
  set s := gridStart p with hs
  set e := gridEnd p with he
  rcases hn : (Int.floor (s - e)).toNat with _ | n
  · simp [linspace]
  · have hfl : Int.floor (s - e) = (n : ℤ) + 1 := by omega
    have h1 : ((n : ℚ) + 1) ≤ s - e := by
      have h2 := Int.floor_le (s - e)
      rw [hfl] at h2
      exact_mod_cast h2
    have hunf : linspace s e (n + 1 + 1) =
        (List.range (n + 2)).map
          (fun i : ℕ => s + (i : ℚ) * ((e - s) / ((n : ℚ) + 1))) := rfl
    rw [hunf]
    refine List.Pairwise.map (fun i : ℕ => s + (i : ℚ) * ((e - s) / ((n : ℚ) + 1)))
      (fun i j hij => ?_) (List.pairwise_lt_range (n + 2))
    show s + (j : ℚ) * ((e - s) / ((n : ℚ) + 1)) + 1 ≤ s + (i : ℚ) * ((e - s) / ((n : ℚ) + 1))
    have hΔ : (1 : ℚ) ≤ (s - e) / ((n : ℚ) + 1) := by
      rw [le_div_iff₀ (by positivity)]
      linarith
    have hji : (1 : ℚ) ≤ (j : ℚ) - (i : ℚ) := by
      have hc : (i : ℚ) + 1 ≤ (j : ℚ) := by exact_mod_cast hij
      linarith
    have hprod : (1 : ℚ) ≤ ((j : ℚ) - i) * ((s - e) / ((n : ℚ) + 1)) := by
      calc (1 : ℚ) = 1 * 1 := by ring
      _ ≤ ((j : ℚ) - i) * ((s - e) / ((n : ℚ) + 1)) :=
          mul_le_mul hji hΔ (by norm_num) (by linarith)
    have hprod2 : (1 : ℚ) ≤ ((i : ℚ) - j) * ((e - s) / ((n : ℚ) + 1)) := by
      rw [show ((i : ℚ) - j) * ((e - s) / ((n : ℚ) + 1)) =
        ((j : ℚ) - i) * ((s - e) / ((n : ℚ) + 1)) by ring]
      exact hprod
    nlinarith [hprod2]

/-- Claim C2: when the FAF distance strictly exceeds both the MAPt and the
    threshold distances, the DME table has at most 8 rows and its displayed
    distances are strictly decreasing.  Consecutive grid points are at least
    1 NM apart, which survives the rounding to 2 decimals. -/
theorem c2_table_shape (p : Params) (hm : p.dme_mapt < p.dme_faf)
    (ht : p.dme_thr < p.dme_faf) :
    (dmeTable p).length ≤ 8 ∧
    (dmeTable p).Pairwise (fun a b => b.distance < a.distance) := by
  constructor
  · exact List.length_take_le _ _
  · have hse : gridEnd p < gridStart p := by
      unfold gridStart gridEnd
      exact max_lt ht hm
    have hkept : (keptPoints p).Pairwise (fun x y => y + 1 ≤ x) :=
      List.Pairwise.sublist (List.filter_sublist _) (pairwise_dmePoints p hse)
    have hmap : ((keptPoints p).map (rowAt p)).Pairwise
        (fun a b => b.distance < a.distance) := by
      rw [List.pairwise_map]
      exact hkept.imp (fun h => round2_lt_round2 h)
    exact List.Pairwise.sublist (List.take_sublist _ _) hmap

/-- Witness for c2_table_shape at the default inputs of app.py. -/
theorem c2_table_shape_witness :
    (⟨150, 450, 2000, 0.5, 6, 1.2, []⟩ : Params).dme_mapt <
      (⟨150, 450, 2000, 0.5, 6, 1.2, []⟩ : Params).dme_faf ∧
    (⟨150, 450, 2000, 0.5, 6, 1.2, []⟩ : Params).dme_thr <
      (⟨150, 450, 2000, 0.5, 6, 1.2, []⟩ : Params).dme_faf ∧
    ((dmeTable ⟨150, 450, 2000, 0.5, 6, 1.2, []⟩).length ≤ 8 ∧
      (dmeTable ⟨150, 450, 2000, 0.5, 6, 1.2, []⟩).Pairwise
        (fun a b => b.distance < a.distance)) :=
  ⟨by norm_num, by norm_num,
    c2_table_shape ⟨150, 450, 2000, 0.5, 6, 1.2, []⟩ (by norm_num) (by norm_num)⟩

/-! ### Claim C3: the ROD formula -/

/-- Claim C3 is false as stated: at ground speed 120 kt with
    fafToMaptDistanceNm = 5.2 and altitudeDropFt = 2200 the code returns the
    row (120, 850 ft/min, 2.6 min); the claimed rodFtPerMin = 50770 (the
    formula with a spurious factor 60) is not what line 88 of app.py
    computes. -/
theorem c3_counterexample :
    (rodRows 5.2 2200 0)[2]? = some ((120 : ℚ), some (850 : ℤ), (2.6 : ℚ)) ∧
    (some (850 : ℤ) : Option ℤ) ≠ some 50770 := by
  have htab : rodRows 5.2 2200 0 =
      [((80 : ℚ), some (560 : ℤ), (3.9 : ℚ)), (100, some 710, 3.12),
        (120, some 850, 2.6), (140, some 990, 2.23), (160, some 1130, 1.95)] := by
    norm_num [rodRows, gsList, rodValue, timeMinutes, nm2ft, round2, rhe, round_eq]
  refine ⟨by rw [htab]; rfl, by simp⟩

/-- Claim C3 amended: for each ground speed the ROD table computes
    timeMin = (d / gs) * 60 (the 6076.12 factors cancel) and
    rodFtPerMin = round(altitudeDrop / timeMin / 10) * 10 — feet per minute,
    with no further factor of 60 — with the time displayed rounded to two
    decimals, and no value produced when the time is zero. -/
theorem c3_rod_formula (d : ℚ) (tod_alt mda : ℤ) :
    rodRows d tod_alt mda =
      gsList.map (fun gs =>
        (gs,
          if d / gs * 60 = 0 then none
          else some (rhe (((tod_alt - mda : ℤ) : ℚ) / (d / gs * 60) / 10) * 10),
          round2 (d / gs * 60))) := by
  have key : ∀ gs : ℚ, gs ≠ 0 → timeMinutes d gs = d / gs * 60 := by
    intro gs hgs
    unfold timeMinutes
    rw [show nm2ft = 607612 / 100 by norm_num [nm2ft]]
    field_simp
    ring
  unfold rodRows gsList
  simp only [List.map_cons, List.map_nil,
    key 80 (by norm_num), key 100 (by norm_num), key 120 (by norm_num),
    key 140 (by norm_num), key 160 (by norm_num)]
  simp [rodValue]

/-! ### Claim C4: degenerate geometry -/

/-- Claim C4 is false as stated: at the negative horizontal distance
    -6076.12 ft (dme_faf one NM closer than dme_thr) the code does not return
    zero: Python truthiness on line 34-35 of app.py guards only the exact
    zero, so both the gradient and the angle are nonzero. -/
theorem c4_counterexample :
    ((-6076.12 : ℚ) ≤ 0) ∧
    descent_gradient 1850 (-6076.12) ≠ 0 ∧
    gp_angle_deg 1850 (-6076.12) ≠ 0 := by
  refine ⟨by norm_num, by norm_num [descent_gradient], ?_⟩
  unfold gp_angle_deg
  rw [if_neg (by norm_num : ¬(-6076.12 : ℚ) = 0)]
  apply mul_ne_zero
  · rw [Ne, Real.arctan_eq_zero_iff]
    apply div_ne_zero <;> · push_cast; norm_num
  · exact div_ne_zero (by norm_num) Real.pi_ne_zero

/-- Claim C4 amended: the glide-path computation returns angleDeg = 0 and
    gradientPercent = 0 exactly when the horizontal distance is zero or the
    altitude difference is zero; a negative horizontal distance is not
    guarded (Python truthiness tests only nonzero-ness). -/
theorem c4_degenerate_iff (v h : ℚ) :
    (gp_angle_deg v h = 0 ∧ descent_gradient v h = 0) ↔ h = 0 ∨ v = 0 := by
  unfold gp_angle_deg descent_gradient
  by_cases hh : h = 0
  · simp [hh]
  · rw [if_neg hh, if_neg hh]
    constructor
    · rintro ⟨-, hg⟩
      rcases mul_eq_zero.mp hg with h1 | h2
      · rcases div_eq_zero_iff.mp h1 with hv | h0
        · exact Or.inr hv
        · exact absurd h0 hh
      · norm_num at h2
    · rintro (h0 | hv)
      · exact absurd h0 hh
      · subst hv
        refine ⟨?_, by rw [zero_div, zero_mul]⟩
        push_cast
        rw [zero_div, Real.arctan_zero, zero_mul]

/-! ### Claim C5: table size and interpolation policy -/

/-- The scenario of claim C5: no step-down fixes, FAF 3000 ft at 5.2 NM,
    MDA 800 ft at MAPt 0.7 NM (threshold and elevation at the app defaults
    0.5 NM / 150 ft, which the scenario leaves unspecified). -/
def pC5 : Params := ⟨150, 800, 3000, 0.5, 5.2, 0.7, []⟩

/-- The deduplicated, sorted anchors of the C5 scenario. -/
theorem pC5_sortedFixes :
    sortedFixes pC5 = [⟨5.2, 3000, .faf⟩, ⟨0.7, 800, .mapt⟩, ⟨0.5, 150, .thr⟩] := by
  rw [sortedFixes,
    show fixes0 pC5 = [⟨5.2, 3000, .faf⟩, ⟨0.7, 800, .mapt⟩, ⟨0.5, 150, .thr⟩] from rfl,
    show uniqueFixes [⟨5.2, 3000, .faf⟩, ⟨0.7, 800, .mapt⟩, ⟨0.5, 150, .thr⟩] =
        [⟨5.2, 3000, .faf⟩, ⟨0.7, 800, .mapt⟩, ⟨0.5, 150, .thr⟩] by
      norm_num [uniqueFixes, upsert, round2, rhe, round_eq]]
  norm_num [List.insertionSort, List.orderedInsert, distGe]

/-- The kept grid points of the C5 scenario: 1-NM steps from 5.2 down to 0.7. -/
theorem pC5_keptPoints : keptPoints pC5 = [5.2, 4.075, 2.95, 1.825, 0.7] := by
  rw [keptPoints, dmePoints,
    show gridEnd pC5 = 0.7 by rw [gridEnd]; norm_num [pC5, max_def],
    show gridStart pC5 = 5.2 from rfl,
    show steps pC5 = 5 by
      rw [steps, show gridStart pC5 = 5.2 from rfl,
        show gridEnd pC5 = 0.7 by rw [gridEnd]; norm_num [pC5, max_def],
        show |(5.2 : ℚ) - 0.7| = 4.5 by rw [abs_of_pos] <;> norm_num,
        show Int.floor (4.5 : ℚ) = 4 by norm_num]
      rfl,
    linspace_five,
    show (5.2 : ℚ) + (0.7 - 5.2) / 4 = 4.075 by norm_num,
    show (5.2 : ℚ) + 2 * ((0.7 - 5.2) / 4) = 2.95 by norm_num,
    show (5.2 : ℚ) + 3 * ((0.7 - 5.2) / 4) = 1.825 by norm_num,
    filterD_cons_pos _ _ _ (by norm_num [pC5]),
    filterD_cons_pos _ _ _ (by norm_num [pC5]),
    filterD_cons_pos _ _ _ (by norm_num [pC5]),
    filterD_cons_pos _ _ _ (by norm_num [pC5]),
    filterD_cons_pos _ _ _ (by norm_num [pC5]),
    List.filter_nil]

/-- The full table of the C5 scenario, row by row. -/
theorem pC5_table :
    dmeTable pC5 =
      [⟨5.2, 3000, .faf⟩, ⟨4.08, 2318, .empty⟩, ⟨2.95, 1636, .empty⟩,
        ⟨1.82, 953, .empty⟩, ⟨0.7, 800, .mapt⟩] := by
  have hFT : (⟨5.2, 3000, .faf⟩ : Fix) ≠ ⟨0.5, 150, .thr⟩ := by simp
  have hrev : ([⟨5.2, 3000, .faf⟩, ⟨0.7, 800, .mapt⟩, ⟨0.5, 150, .thr⟩] : List Fix).reverse =
      [⟨0.5, 150, .thr⟩, ⟨0.7, 800, .mapt⟩, ⟨5.2, 3000, .faf⟩] := rfl
  have hr0 : rowAt pC5 5.2 = ⟨5.2, 3000, .faf⟩ := by
    rw [rowAt_matched _ _ _ (by
      rw [matchingFix, pC5_sortedFixes,
        findD_cons_pos _ _ _ (by norm_num [abs_of_pos, abs_of_neg])])]
    norm_num [round2, rhe, round_eq, pC5]
  have hinterp : ∀ dme : ℚ, ¬|(5.2 : ℚ) - dme| < 1 / 100 → ¬|(0.7 : ℚ) - dme| < 1 / 100 →
      ¬|(0.5 : ℚ) - dme| < 1 / 100 → dme ≤ 5.2 → 0.5 ≤ dme →
      rowAt pC5 dme =
        ⟨round2 dme,
          rhe (if dme ≤ 0.7 then
              max (150 + (dme - 0.5) / (5.2 - 0.5) * (3000 - 150)) (800 : ℚ)
            else 150 + (dme - 0.5) / (5.2 - 0.5) * (3000 - 150)),
          .empty⟩ := by
    intro dme h1 h2 h3 h4 h5
    rw [rowAt_interp pC5 dme ⟨5.2, 3000, .faf⟩ ⟨0.5, 150, .thr⟩
      (by rw [matchingFix, pC5_sortedFixes, findD_cons_neg _ _ _ (by exact h1),
        findD_cons_neg _ _ _ (by exact h2), findD_cons_neg _ _ _ (by exact h3),
        List.find?_nil])
      (by rw [aboveFix, pC5_sortedFixes, findD_cons_pos _ _ _ (by exact h4)])
      (by rw [belowFix, pC5_sortedFixes, hrev, findD_cons_pos _ _ _ (by exact h5)])
      hFT]
    norm_num [pC5]
  have hr1 : rowAt pC5 4.075 = ⟨4.08, 2318, .empty⟩ := by
    rw [hinterp 4.075 (by norm_num [abs_of_pos, abs_of_neg])
      (by norm_num [abs_of_pos, abs_of_neg]) (by norm_num [abs_of_pos, abs_of_neg])
      (by norm_num) (by norm_num)]
    norm_num [round2, rhe, round_eq]
  have hr2 : rowAt pC5 2.95 = ⟨2.95, 1636, .empty⟩ := by
    rw [hinterp 2.95 (by norm_num [abs_of_pos, abs_of_neg])
      (by norm_num [abs_of_pos, abs_of_neg]) (by norm_num [abs_of_pos, abs_of_neg])
      (by norm_num) (by norm_num)]
    norm_num [round2, rhe, round_eq]
  have hr3 : rowAt pC5 1.825 = ⟨1.82, 953, .empty⟩ := by
    rw [hinterp 1.825 (by norm_num [abs_of_pos, abs_of_neg])
      (by norm_num [abs_of_pos, abs_of_neg]) (by norm_num [abs_of_pos, abs_of_neg])
      (by norm_num) (by norm_num)]
    norm_num [round2, rhe, round_eq]
  have hr4 : rowAt pC5 0.7 = ⟨0.7, 800, .mapt⟩ := by
    rw [rowAt_matched _ _ _ (by
      rw [matchingFix, pC5_sortedFixes,
        findD_cons_neg _ _ _ (by norm_num [abs_of_pos, abs_of_neg]),
        findD_cons_pos _ _ _ (by norm_num [abs_of_pos, abs_of_neg])])]
    norm_num [round2, rhe, round_eq, pC5]
  rw [dmeTable, pC5_keptPoints, List.map_cons, List.map_cons, List.map_cons,
    List.map_cons, List.map_cons, List.map_nil, hr0, hr1, hr2, hr3, hr4]
  rfl

/-- Claim C5 is false as stated: the scenario table has 5 rows, not 8.
    app.py builds the grid at whole-NM subdivisions (int(abs(5.2 - 0.7)) + 1
    = 5 points) and never fills up to 8 rows. -/
theorem c5_counterexample :
    (dmeTable pC5).length = 5 ∧ (dmeTable pC5).length ≠ 8 := by
  rw [pC5_table]
  exact ⟨rfl, by norm_num⟩

/-- Claim C5 amended: the scenario yields exactly 5 rows — the FAF and MAPt
    anchors plus 3 interpolated rows with empty labels — with strictly
    decreasing distance and altitude.  Interpolation brackets between the
    outermost fixes (FAF above, THR below), not the nearest anchors, and the
    grid has int(abs(fafDistance - max(thrDistance, maptDistance))) + 1
    points, trimmed to at most 8 — it is not filled up to 8. -/
theorem c5_table_five_rows :
    dmeTable pC5 =
      [⟨5.2, 3000, .faf⟩, ⟨4.08, 2318, .empty⟩, ⟨2.95, 1636, .empty⟩,
        ⟨1.82, 953, .empty⟩, ⟨0.7, 800, .mapt⟩] ∧
    (dmeTable pC5).Pairwise
      (fun a b => b.distance < a.distance ∧ b.altitude < a.altitude) := by
  refine ⟨pC5_table, ?_⟩
  rw [pC5_table]
  norm_num [List.pairwise_cons]

/-! ### Claim C6: anchor deduplication -/

/-- Claim C6 is false as stated: two anchors at 3.00 NM and 3.04 NM are NOT
    merged by the deduplication of line 46 of app.py (their distances round
    to different 2-decimal values); there is no 0.05-0.15 NM tolerance. -/
theorem c6_counterexample :
    uniqueFixes [⟨3, 900, .sdf 1⟩, ⟨3.04, 800, .sdf 2⟩] =
      [⟨3, 900, .sdf 1⟩, ⟨3.04, 800, .sdf 2⟩] := by
  norm_num [uniqueFixes, upsert, round2, rhe, round_eq]

/-- One dict write after another with the same key leaves exactly the later
    value, wherever the key first appeared. -/
theorem upsert_upsert_key (acc : List Fix) (f g : Fix)
    (h : round2 f.distance = round2 g.distance) :
    upsert (upsert acc f) g = upsert acc g := by
  induction acc with
  | nil => simp [upsert, h]
  | cons a t ih =>
    by_cases hk : round2 a.distance = round2 f.distance
    · rw [show upsert (a :: t) f = f :: t by simp [upsert, hk],
        show upsert (f :: t) g = g :: t by simp [upsert, h],
        show upsert (a :: t) g = g :: t by simp [upsert, hk.trans h]]
    · have hk2 : ¬round2 a.distance = round2 g.distance := fun hc => hk (hc.trans h.symm)
      rw [show upsert (a :: t) f = a :: upsert t f by simp [upsert, hk],
        show upsert (a :: upsert t f) g = a :: upsert (upsert t f) g by simp [upsert, hk2],
        ih,
        show upsert (a :: t) g = a :: upsert t g by simp [upsert, hk2]]

/-- Claim C6 amended: two anchors merge exactly when their distances are
    equal after rounding to two decimals (Python round-half-even), and then
    the later-defined anchor wins entirely: appending both is the same as
    appending only the later one.  Anchors at 3.00 and 3.004 merge; 3.00 and
    3.04 do not. -/
theorem c6_last_wins (l : List Fix) (f g : Fix)
    (h : round2 f.distance = round2 g.distance) :
    uniqueFixes (l ++ [f, g]) = uniqueFixes (l ++ [g]) := by
  unfold uniqueFixes
  rw [List.foldl_append, List.foldl_append]
  simp only [List.foldl_cons, List.foldl_nil]
  exact upsert_upsert_key _ f g h

/-- Witness for c6_last_wins: anchors at 3.00 and 3.004 NM merge, the later
    one (altitude 800) winning. -/
theorem c6_last_wins_witness :
    round2 (Fix.mk 3 900 (.sdf 1)).distance = round2 (Fix.mk 3.004 800 (.sdf 2)).distance ∧
    uniqueFixes ([⟨6, 2000, .faf⟩] ++ [⟨3, 900, .sdf 1⟩, ⟨3.004, 800, .sdf 2⟩]) =
      uniqueFixes ([⟨6, 2000, .faf⟩] ++ [⟨3.004, 800, .sdf 2⟩]) :=
  ⟨by norm_num [round2, rhe, round_eq],
    c6_last_wins [⟨6, 2000, .faf⟩] ⟨3, 900, .sdf 1⟩ ⟨3.004, 800, .sdf 2⟩
      (by norm_num [round2, rhe, round_eq])⟩

/-! ### Claim C7: the divide-by-zero guard that is not there -/

/-- Claim C7 describes a guard that app.py does not contain: with
    fafToMaptDistanceNm = 0 the time is 0 for every ground speed and line 88
    divides the altitude drop by zero (numpy produces inf/NaN, modelled as
    none) — it does not return rodFtPerMin = 0. -/
theorem c7_no_guard :
    rodRows 0 2200 0 =
      [(80, none, 0), (100, none, 0), (120, none, 0), (140, none, 0),
        (160, none, 0)] := by
  norm_num [rodRows, gsList, rodValue, timeMinutes, nm2ft, round2, rhe, round_eq]

/-! ### Claim C8: the slant-range correction that is never applied -/

/-- Claim C8 describes a slant-range correction that app.py computes (line 33)
    but never uses: at the default inputs (vertical drop 1850 ft, horizontal
    distance 5.5 NM = 33418.66 ft) the angle the code reports, atan(v/h),
    differs from the slant-corrected angle atan(v/slant) the claim asserts,
    because the slant distance strictly exceeds the horizontal distance. -/
theorem c8_slant_unused :
    gp_angle_deg ((verticalFt 2000 150 : ℤ) : ℚ) (horizontalFt 6 0.5) ≠
      gp_angle_deg_slant ((verticalFt 2000 150 : ℤ) : ℚ) (horizontalFt 6 0.5) := by
  rw [show ((verticalFt 2000 150 : ℤ) : ℚ) = 1850 by norm_num [verticalFt],
    show horizontalFt 6 0.5 = 33418.66 by rw [horizontalFt]; norm_num [nm2ft]]
  unfold gp_angle_deg gp_angle_deg_slant slant_distance
  rw [if_neg (by norm_num : ¬(33418.66 : ℚ) = 0)]
  intro hEq
  have hpi : (180 : ℝ) / Real.pi ≠ 0 := div_ne_zero (by norm_num) Real.pi_ne_zero
  have hinj := Real.arctan_injective (mul_right_cancel₀ hpi hEq)
  have hv : (0 : ℝ) < ((1850 : ℚ) : ℝ) := by norm_num
  have hh : (0 : ℝ) < ((33418.66 : ℚ) : ℝ) := by norm_num
  have hs : ((33418.66 : ℚ) : ℝ) <
      Real.sqrt (((33418.66 : ℚ) : ℝ) ^ 2 + ((1850 : ℚ) : ℝ) ^ 2) := by
    rw [Real.lt_sqrt hh.le]
    nlinarith [hv]
  have hlt : ((1850 : ℚ) : ℝ) / Real.sqrt (((33418.66 : ℚ) : ℝ) ^ 2 + ((1850 : ℚ) : ℝ) ^ 2) <
      ((1850 : ℚ) : ℝ) / ((33418.66 : ℚ) : ℝ) :=
    div_lt_div_of_pos_left hv hh hs
  rw [hinj] at hlt
  exact lt_irrefl _ hlt

/-! ### Claim C9: the clamp overrides the threshold anchor -/

/-- Everything a dict write inserts was already in the list or is the new fix. -/
theorem mem_of_mem_upsert (l : List Fix) (f x : Fix) (h : x ∈ upsert l f) :
    x ∈ l ∨ x = f := by
  induction l with
  | nil =>
    simp [upsert] at h
    exact Or.inr h
  | cons a t ih =>
    by_cases hk : round2 a.distance = round2 f.distance
    · rw [upsert, if_pos hk] at h
      rcases List.mem_cons.mp h with h1 | h1
      · exact Or.inr h1
      · exact Or.inl (List.mem_cons_of_mem _ h1)
    · rw [upsert, if_neg hk] at h
      rcases List.mem_cons.mp h with h1 | h1
      · exact Or.inl (h1 ▸ List.mem_cons_self _ _)
      · rcases ih h1 with h2 | h2
        · exact Or.inl (List.mem_cons_of_mem _ h2)
        · exact Or.inr h2

/-- Deduplication only keeps fixes that were in the input list. -/
theorem mem_of_mem_uniqueFixes (l : List Fix) (x : Fix) (h : x ∈ uniqueFixes l) :
    x ∈ l := by
  have key : ∀ (l' acc : List Fix), x ∈ l'.foldl upsert acc → x ∈ acc ∨ x ∈ l' := by
    intro l'
    induction l' with
    | nil => exact fun acc h' => Or.inl h'
    | cons f t ih =>
      intro acc h'
      rcases ih (upsert acc f) h' with h1 | h1
      · rcases mem_of_mem_upsert _ _ _ h1 with h2 | h2
        · exact Or.inl h2
        · exact Or.inr (h2 ▸ List.mem_cons_self _ _)
      · exact Or.inr (List.mem_cons_of_mem _ h1)
  rcases key l [] h with h1 | h1
  · simp at h1
  · exact h1

/-- The sorted fix list only contains original anchors. -/
theorem mem_of_mem_sortedFixes (p : Params) (x : Fix) (h : x ∈ sortedFixes p) :
    x ∈ fixes0 p :=
  mem_of_mem_uniqueFixes _ _ (((List.perm_insertionSort distGe _).mem_iff).mp h)

/-- Step-down fixes only carry sdf labels. -/
theorem mkSdfFixes_label (i : ℕ) (l : List (ℚ × ℤ)) (f : Fix)
    (h : f ∈ mkSdfFixes i l) : ∃ n, f.label = .sdf n := by
  induction l generalizing i with
  | nil => simp [mkSdfFixes] at h
  | cons a t ih =>
    rw [mkSdfFixes] at h
    rcases List.mem_cons.mp h with h1 | h1
    · exact ⟨i + 1, by rw [h1]⟩
    · exact ih _ h1

/-- The only anchor with the THR label is the threshold anchor itself. -/
theorem thr_fix_unique (p : Params) (f : Fix) (hmem : f ∈ fixes0 p)
    (hlab : f.label = .thr) : f = ⟨p.dme_thr, (p.elevation : ℚ), .thr⟩ := by
  rcases List.mem_cons.mp hmem with h1 | h1
  · rw [h1] at hlab
    simp at hlab
  · rcases List.mem_append.mp h1 with h2 | h2
    · rcases mkSdfFixes_label _ _ _ h2 with ⟨n, hn⟩
      rw [hlab] at hn
      simp at hn
    · rcases List.mem_cons.mp h2 with h3 | h3
      · rw [h3] at hlab
        simp at hlab
      · rcases List.mem_cons.mp h3 with h4 | h4
        · exact h4
        · simp at h4

/-- Claim C9: whenever the threshold elevation is at most mdaFt, any table
    row generated at a grid distance at or inside the MAPt distance that
    carries the THR label reports altitude mdaFt, not the threshold
    elevation: the clamp of line 74 silently overrides the threshold
    anchor's own altitude.  This covers the claim's scenario (threshold at
    or below the MAPt distance with elevation below the MDA), where the row
    produced at the threshold distance is THR-labeled. -/
theorem c9_thr_clamped (p : Params) (dme : ℚ) (helev : p.elevation ≤ p.mda)
    (hdme : dme ≤ p.dme_mapt) (hlab : (rowAt p dme).label = .thr) :
    (rowAt p dme).altitude = p.mda := by
  have hlab' : (altLabelAt p dme).2 = .thr := hlab
  cases hm : matchingFix p dme with
  | none =>
    have hempty : (altLabelAt p dme).2 = .empty := by
      unfold altLabelAt
      rw [hm]
      rcases aboveFix p dme with _ | a <;> rcases belowFix p dme with _ | b <;>
        simp [apply_ite]
    rw [hempty] at hlab'
    exact absurd hlab' (by simp)
  | some f =>
    have hfl : f.label = .thr := by
      have hl2 : (altLabelAt p dme).2 = f.label := by
        unfold altLabelAt
        rw [hm]
      exact hl2.symm.trans hlab'
    have hf0 : f ∈ fixes0 p := by
      unfold matchingFix at hm
      exact mem_of_mem_sortedFixes p f (List.mem_of_find?_eq_some hm)
    have hft := thr_fix_unique p f hf0 hfl
    have halt : (altLabelAt p dme).1 = (p.elevation : ℚ) := by
      unfold altLabelAt
      rw [hm, hft]
    show rhe (if dme ≤ p.dme_mapt then max (altLabelAt p dme).1 (p.mda : ℚ)
      else (altLabelAt p dme).1) = p.mda
    rw [if_pos hdme, halt, max_eq_right (by exact_mod_cast helev), rhe_intCast]

/-- Witness for c9_thr_clamped: threshold at the MAPt distance, elevation 150
    below MDA 450; the table row at that distance is the THR anchor and
    reports 450. -/
theorem c9_thr_clamped_witness :
    (⟨150, 450, 2000, 1, 2, 1, []⟩ : Params).elevation ≤
      (⟨150, 450, 2000, 1, 2, 1, []⟩ : Params).mda ∧
    (1 : ℚ) ≤ (⟨150, 450, 2000, 1, 2, 1, []⟩ : Params).dme_mapt ∧
    (rowAt ⟨150, 450, 2000, 1, 2, 1, []⟩ 1).label = .thr ∧
    (rowAt ⟨150, 450, 2000, 1, 2, 1, []⟩ 1).altitude =
      (⟨150, 450, 2000, 1, 2, 1, []⟩ : Params).mda := by
  have hsf : sortedFixes ⟨150, 450, 2000, 1, 2, 1, []⟩ =
      [⟨2, 2000, .faf⟩, ⟨1, 150, .thr⟩] := by
    rw [sortedFixes,
      show fixes0 ⟨150, 450, 2000, 1, 2, 1, []⟩ =
        [⟨2, 2000, .faf⟩, ⟨1, 450, .mapt⟩, ⟨1, 150, .thr⟩] from rfl,
      show uniqueFixes [⟨2, 2000, .faf⟩, ⟨1, 450, .mapt⟩, ⟨1, 150, .thr⟩] =
          [⟨2, 2000, .faf⟩, ⟨1, 150, .thr⟩] by
        norm_num [uniqueFixes, upsert, round2, rhe, round_eq]]
    norm_num [List.insertionSort, List.orderedInsert, distGe]
  have hm : matchingFix ⟨150, 450, 2000, 1, 2, 1, []⟩ 1 = some ⟨1, 150, .thr⟩ := by
    rw [matchingFix, hsf, findD_cons_neg _ _ _ (by norm_num [abs_of_pos, abs_of_neg]),
      findD_cons_pos _ _ _ (by norm_num)]
  have hlab : (rowAt ⟨150, 450, 2000, 1, 2, 1, []⟩ 1).label = .thr := by
    rw [rowAt_matched _ _ _ hm]
  exact ⟨by norm_num, by norm_num, hlab,
    c9_thr_clamped ⟨150, 450, 2000, 1, 2, 1, []⟩ 1 (by norm_num) (by norm_num) hlab⟩

/-! ### Claim C10: off-grid step-down fixes have no influence -/

/-- Input for claim C10: one step-down fix at 2.0 NM / 900 ft, at least
    0.01 NM away from every grid point (4, 2.6, 1.2). -/
def pC10 : Params := ⟨150, 450, 2000, 0.5, 4, 1.2, [(2, 900)]⟩

/-- The same input with the step-down-fix altitude changed to 1500 ft. -/
def pC10b : Params := ⟨150, 450, 2000, 0.5, 4, 1.2, [(2, 1500)]⟩

/-- The grid of pC10 (identical for pC10b). -/
theorem pC10_dmePoints : dmePoints pC10 = [4, 2.6, 1.2] := by
  rw [dmePoints,
    show gridEnd pC10 = 1.2 by rw [gridEnd]; norm_num [pC10, max_def],
    show gridStart pC10 = 4 from rfl,
    show steps pC10 = 3 by
      rw [steps, show gridStart pC10 = 4 from rfl,
        show gridEnd pC10 = 1.2 by rw [gridEnd]; norm_num [pC10, max_def],
        show |(4 : ℚ) - 1.2| = 2.8 by rw [abs_of_pos] <;> norm_num,
        show Int.floor (2.8 : ℚ) = 2 by norm_num]
      rfl,
    linspace_three, show (4 : ℚ) + (1.2 - 4) / 2 = 2.6 by norm_num]

/-- The kept grid points of pC10. -/
theorem pC10_keptPoints : keptPoints pC10 = [4, 2.6, 1.2] := by
  rw [keptPoints, pC10_dmePoints,
    filterD_cons_pos _ _ _ (by norm_num [pC10]),
    filterD_cons_pos _ _ _ (by norm_num [pC10]),
    filterD_cons_pos _ _ _ (by norm_num [pC10]),
    List.filter_nil]

/-- The deduplicated, sorted anchors of pC10. -/
theorem pC10_sortedFixes :
    sortedFixes pC10 =
      [⟨4, 2000, .faf⟩, ⟨2, 900, .sdf 1⟩, ⟨1.2, 450, .mapt⟩, ⟨0.5, 150, .thr⟩] := by
  rw [sortedFixes,
    show fixes0 pC10 =
      [⟨4, 2000, .faf⟩, ⟨2, 900, .sdf 1⟩, ⟨1.2, 450, .mapt⟩, ⟨0.5, 150, .thr⟩] from rfl,
    show uniqueFixes
        [⟨4, 2000, .faf⟩, ⟨2, 900, .sdf 1⟩, ⟨1.2, 450, .mapt⟩, ⟨0.5, 150, .thr⟩] =
        [⟨4, 2000, .faf⟩, ⟨2, 900, .sdf 1⟩, ⟨1.2, 450, .mapt⟩, ⟨0.5, 150, .thr⟩] by
      norm_num [uniqueFixes, upsert, round2, rhe, round_eq]]
  norm_num [List.insertionSort, List.orderedInsert, distGe]

/-- The deduplicated, sorted anchors of pC10b. -/
theorem pC10b_sortedFixes :
    sortedFixes pC10b =
      [⟨4, 2000, .faf⟩, ⟨2, 1500, .sdf 1⟩, ⟨1.2, 450, .mapt⟩, ⟨0.5, 150, .thr⟩] := by
  rw [sortedFixes,
    show fixes0 pC10b =
      [⟨4, 2000, .faf⟩, ⟨2, 1500, .sdf 1⟩, ⟨1.2, 450, .mapt⟩, ⟨0.5, 150, .thr⟩] from rfl,
    show uniqueFixes
        [⟨4, 2000, .faf⟩, ⟨2, 1500, .sdf 1⟩, ⟨1.2, 450, .mapt⟩, ⟨0.5, 150, .thr⟩] =
        [⟨4, 2000, .faf⟩, ⟨2, 1500, .sdf 1⟩, ⟨1.2, 450, .mapt⟩, ⟨0.5, 150, .thr⟩] by
      norm_num [uniqueFixes, upsert, round2, rhe, round_eq]]
  norm_num [List.insertionSort, List.orderedInsert, distGe]

/-- The table of pC10: the step-down fix matches no grid point and the
    interpolated row at 2.6 NM brackets between FAF and THR, so its 900 ft
    never appears. -/
theorem pC10_table :
    dmeTable pC10 = [⟨4, 2000, .faf⟩, ⟨2.6, 1260, .empty⟩, ⟨1.2, 450, .mapt⟩] := by
  have hFT : (⟨4, 2000, .faf⟩ : Fix) ≠ ⟨0.5, 150, .thr⟩ := by simp
  have hrev : ([⟨4, 2000, .faf⟩, ⟨2, 900, .sdf 1⟩, ⟨1.2, 450, .mapt⟩,
      ⟨0.5, 150, .thr⟩] : List Fix).reverse =
      [⟨0.5, 150, .thr⟩, ⟨1.2, 450, .mapt⟩, ⟨2, 900, .sdf 1⟩, ⟨4, 2000, .faf⟩] := rfl
  have hr0 : rowAt pC10 4 = ⟨4, 2000, .faf⟩ := by
    rw [rowAt_matched _ _ _ (by
      rw [matchingFix, pC10_sortedFixes,
        findD_cons_pos _ _ _ (by norm_num [abs_of_pos, abs_of_neg])])]
    norm_num [round2, rhe, round_eq, pC10]
  have hr1 : rowAt pC10 2.6 = ⟨2.6, 1260, .empty⟩ := by
    rw [rowAt_interp pC10 2.6 ⟨4, 2000, .faf⟩ ⟨0.5, 150, .thr⟩
      (by rw [matchingFix, pC10_sortedFixes,
        findD_cons_neg _ _ _ (by norm_num [abs_of_pos, abs_of_neg]),
        findD_cons_neg _ _ _ (by norm_num [abs_of_pos, abs_of_neg]),
        findD_cons_neg _ _ _ (by norm_num [abs_of_pos, abs_of_neg]),
        findD_cons_neg _ _ _ (by norm_num [abs_of_pos, abs_of_neg]), List.find?_nil])
      (by rw [aboveFix, pC10_sortedFixes, findD_cons_pos _ _ _ (by norm_num)])
      (by rw [belowFix, pC10_sortedFixes, hrev, findD_cons_pos _ _ _ (by norm_num)])
      hFT]
    norm_num [round2, rhe, round_eq, pC10]
  have hr2 : rowAt pC10 1.2 = ⟨1.2, 450, .mapt⟩ := by
    rw [rowAt_matched _ _ _ (by
      rw [matchingFix, pC10_sortedFixes,
        findD_cons_neg _ _ _ (by norm_num [abs_of_pos, abs_of_neg]),
        findD_cons_neg _ _ _ (by norm_num [abs_of_pos, abs_of_neg]),
        findD_cons_pos _ _ _ (by norm_num [abs_of_pos, abs_of_neg])])]
    norm_num [round2, rhe, round_eq, pC10]
  rw [dmeTable, pC10_keptPoints, List.map_cons, List.map_cons, List.map_cons,
    List.map_nil, hr0, hr1, hr2]
  rfl

/-- The table of pC10b is identical row by row: the changed step-down-fix
    altitude (1500 instead of 900) influences nothing. -/
theorem pC10b_table :
    dmeTable pC10b = [⟨4, 2000, .faf⟩, ⟨2.6, 1260, .empty⟩, ⟨1.2, 450, .mapt⟩] := by
  have hFT : (⟨4, 2000, .faf⟩ : Fix) ≠ ⟨0.5, 150, .thr⟩ := by simp
  have hrev : ([⟨4, 2000, .faf⟩, ⟨2, 1500, .sdf 1⟩, ⟨1.2, 450, .mapt⟩,
      ⟨0.5, 150, .thr⟩] : List Fix).reverse =
      [⟨0.5, 150, .thr⟩, ⟨1.2, 450, .mapt⟩, ⟨2, 1500, .sdf 1⟩, ⟨4, 2000, .faf⟩] := rfl
  have hkept : keptPoints pC10b = [4, 2.6, 1.2] := by
    rw [keptPoints,
      show dmePoints pC10b = dmePoints pC10 from rfl, pC10_dmePoints,
      filterD_cons_pos _ _ _ (by norm_num [pC10b]),
      filterD_cons_pos _ _ _ (by norm_num [pC10b]),
      filterD_cons_pos _ _ _ (by norm_num [pC10b]),
      List.filter_nil]
  have hr0 : rowAt pC10b 4 = ⟨4, 2000, .faf⟩ := by
    rw [rowAt_matched _ _ _ (by
      rw [matchingFix, pC10b_sortedFixes,
        findD_cons_pos _ _ _ (by norm_num [abs_of_pos, abs_of_neg])])]
    norm_num [round2, rhe, round_eq, pC10b]
  have hr1 : rowAt pC10b 2.6 = ⟨2.6, 1260, .empty⟩ := by
    rw [rowAt_interp pC10b 2.6 ⟨4, 2000, .faf⟩ ⟨0.5, 150, .thr⟩
      (by rw [matchingFix, pC10b_sortedFixes,
        findD_cons_neg _ _ _ (by norm_num [abs_of_pos, abs_of_neg]),
        findD_cons_neg _ _ _ (by norm_num [abs_of_pos, abs_of_neg]),
        findD_cons_neg _ _ _ (by norm_num [abs_of_pos, abs_of_neg]),
        findD_cons_neg _ _ _ (by norm_num [abs_of_pos, abs_of_neg]), List.find?_nil])
      (by rw [aboveFix, pC10b_sortedFixes, findD_cons_pos _ _ _ (by norm_num)])
      (by rw [belowFix, pC10b_sortedFixes, hrev, findD_cons_pos _ _ _ (by norm_num)])
      hFT]
    norm_num [round2, rhe, round_eq, pC10b]
  have hr2 : rowAt pC10b 1.2 = ⟨1.2, 450, .mapt⟩ := by
    rw [rowAt_matched _ _ _ (by
      rw [matchingFix, pC10b_sortedFixes,
        findD_cons_neg _ _ _ (by norm_num [abs_of_pos, abs_of_neg]),
        findD_cons_neg _ _ _ (by norm_num [abs_of_pos, abs_of_neg]),
        findD_cons_pos _ _ _ (by norm_num [abs_of_pos, abs_of_neg])])]
    norm_num [round2, rhe, round_eq, pC10b]
  rw [dmeTable, hkept, List.map_cons, List.map_cons, List.map_cons,
    List.map_nil, hr0, hr1, hr2]
  rfl

/-- Claim C10 is false as stated: the step-down fix at 2.0 NM is at least
    0.01 NM from every grid point and indeed never appears as a labeled row,
    but its altitude also does NOT influence the interpolated neighbouring
    rows: changing it from 900 to 1500 ft leaves the table bit-identical,
    because interpolation always brackets between the first (FAF) and last
    (THR) fixes of the sorted list, never the step-down fix. -/
theorem c10_counterexample :
    dmeTable pC10 = dmeTable pC10b ∧
    (dmeTable pC10).countP (fun r => decide (r.label = .sdf 1)) = 0 ∧
    (dmePoints pC10).all (fun d => decide (1 / 100 ≤ |2 - d|)) = true := by
  refine ⟨by rw [pC10_table, pC10b_table], ?_, ?_⟩
  · rw [pC10_table]
    rfl
  · rw [List.all_eq_true]
    intro x hx
    rw [pC10_dmePoints] at hx
    simp only [List.mem_cons, List.not_mem_nil, or_false] at hx
    rcases hx with rfl | rfl | rfl <;>
      exact decide_eq_true (by norm_num [abs_of_pos, abs_of_neg])

/-- Two parameter sets whose matching, above and below lookups agree at a
    grid point (and whose MAPt distance, MDA and elevation agree) produce the
    same table row there. -/
theorem rowAt_congr (p q : Params) (dme : ℚ)
    (hmapt : q.dme_mapt = p.dme_mapt) (hmda : q.mda = p.mda)
    (helev : q.elevation = p.elevation)
    (hmatch : matchingFix p dme = matchingFix q dme)
    (habove : ∃ a, aboveFix p dme = some a ∧ aboveFix q dme = some a)
    (hbelow : ∃ b, belowFix p dme = some b ∧ belowFix q dme = some b) :
    rowAt p dme = rowAt q dme := by
  obtain ⟨a, ha, ha'⟩ := habove
  obtain ⟨b, hb, hb'⟩ := hbelow
  have halt : altLabelAt p dme = altLabelAt q dme := by
    unfold altLabelAt
    rw [hmatch, ha, ha', hb, hb', helev]
  unfold rowAt
  rw [halt, hmapt, hmda]

/-- Claim C10 amended: a step-down fix whose distance is at least 0.01 NM
    from every grid point never appears as a labeled row, and its altitude
    does not influence any other row either: with a single such step-down fix
    strictly between the threshold and FAF distances (threshold < MAPt < FAF,
    all four anchor distances distinct after rounding to two decimals), the
    table is identical to the table computed with no step-down fixes at all,
    because the interpolation of lines 66-70 always brackets between the
    first fix (FAF) and the last fix (THR) of the sorted list. -/
theorem c10_no_influence (p : Params) (s : ℚ × ℤ) (hs : p.sdfs = [s])
    (h1 : p.dme_thr < p.dme_mapt) (h2 : p.dme_mapt < p.dme_faf)
    (h3 : p.dme_thr < s.1) (h4 : s.1 < p.dme_faf)
    (hkeys : List.Pairwise (fun a b => round2 a ≠ round2 b)
      [p.dme_faf, s.1, p.dme_mapt, p.dme_thr])
    (hgrid : ∀ dme ∈ dmePoints p, 1 / 100 ≤ |s.1 - dme|) :
    dmeTable p = dmeTable { p with sdfs := [] } ∧
    ∀ r ∈ dmeTable p, r.label ≠ .sdf 1 := by
  obtain ⟨hkF, hkeys2⟩ := List.pairwise_cons.mp hkeys
  obtain ⟨hkS, hkeys3⟩ := List.pairwise_cons.mp hkeys2
  obtain ⟨hkM, -⟩ := List.pairwise_cons.mp hkeys3
  have hFS : round2 p.dme_faf ≠ round2 s.1 := hkF s.1 (by simp)
  have hFM : round2 p.dme_faf ≠ round2 p.dme_mapt := hkF p.dme_mapt (by simp)
  have hFT : round2 p.dme_faf ≠ round2 p.dme_thr := hkF p.dme_thr (by simp)
  have hSM : round2 s.1 ≠ round2 p.dme_mapt := hkS p.dme_mapt (by simp)
  have hST : round2 s.1 ≠ round2 p.dme_thr := hkS p.dme_thr (by simp)
  have hMT : round2 p.dme_mapt ≠ round2 p.dme_thr := hkM p.dme_thr (by simp)
  have hfix : fixes0 p = [⟨p.dme_faf, (p.tod_alt : ℚ), .faf⟩, ⟨s.1, (s.2 : ℚ), .sdf 1⟩,
      ⟨p.dme_mapt, (p.mda : ℚ), .mapt⟩, ⟨p.dme_thr, (p.elevation : ℚ), .thr⟩] := by
    rw [fixes0, hs]
    rfl
  have hfix' : fixes0 { p with sdfs := [] } =
      [⟨p.dme_faf, (p.tod_alt : ℚ), .faf⟩, ⟨p.dme_mapt, (p.mda : ℚ), .mapt⟩,
        ⟨p.dme_thr, (p.elevation : ℚ), .thr⟩] := rfl
  have hsort' : sortedFixes { p with sdfs := [] } =
      [⟨p.dme_faf, (p.tod_alt : ℚ), .faf⟩, ⟨p.dme_mapt, (p.mda : ℚ), .mapt⟩,
        ⟨p.dme_thr, (p.elevation : ℚ), .thr⟩] := by
    rw [sortedFixes,
      show uniqueFixes (fixes0 { p with sdfs := [] }) = fixes0 { p with sdfs := [] } by
        rw [hfix']
        simp [uniqueFixes, upsert, hFM, hFT, hMT],
      hfix']
    simp [List.insertionSort, List.orderedInsert, distGe, h1.le, h2.le]
  suffices htab : dmeTable p = dmeTable { p with sdfs := [] } by
    refine ⟨htab, ?_⟩
    intro r hr
    rw [htab] at hr
    have hr' : r ∈ (keptPoints { p with sdfs := [] }).map (rowAt { p with sdfs := [] }) :=
      (List.take_sublist _ _).subset hr
    obtain ⟨dme, hdme, hrval⟩ := List.mem_map.mp hr'
    rw [← hrval]
    intro hlab
    have hlab' : (altLabelAt { p with sdfs := [] } dme).2 = .sdf 1 := hlab
    cases hm : matchingFix { p with sdfs := [] } dme with
    | none =>
      have hempty : (altLabelAt { p with sdfs := [] } dme).2 = .empty := by
        unfold altLabelAt
        rw [hm]
        rcases aboveFix { p with sdfs := [] } dme with _ | a <;>
          rcases belowFix { p with sdfs := [] } dme with _ | b <;> simp [apply_ite]
      rw [hempty] at hlab'
      exact absurd hlab' (by simp)
    | some f =>
      have hfl : f.label = .sdf 1 := by
        have hl2 : (altLabelAt { p with sdfs := [] } dme).2 = f.label := by
          unfold altLabelAt
          rw [hm]
        exact hl2.symm.trans hlab'
      have hf0 : f ∈ fixes0 { p with sdfs := [] } := by
        unfold matchingFix at hm
        exact mem_of_mem_sortedFixes _ f (List.mem_of_find?_eq_some hm)
      rw [hfix'] at hf0
      simp only [List.mem_cons, List.not_mem_nil, or_false] at hf0
      rcases hf0 with rfl | rfl | rfl <;> simp at hfl
  have hkeq : keptPoints { p with sdfs := [] } = keptPoints p := rfl
  have hrow : ∀ dme ∈ keptPoints p, rowAt p dme = rowAt { p with sdfs := [] } dme := by
    intro dme hdme
    have hmem : dme ∈ dmePoints p := List.mem_of_mem_filter hdme
    have hrange := (List.mem_filter.mp hdme).2
    rw [decide_eq_true_eq] at hrange
    obtain ⟨hle, hge⟩ := hrange
    have hSno : ¬|s.1 - dme| < 1 / 100 := not_lt.mpr (hgrid dme hmem)
    rcases le_or_lt s.1 p.dme_mapt with hsm | hsm
    · -- the step-down fix sorts between MAPt and THR
      have hsm' : s.1 < p.dme_mapt := lt_of_le_of_ne hsm (fun he => hSM (by rw [he]))
      have hsort : sortedFixes p = [⟨p.dme_faf, (p.tod_alt : ℚ), .faf⟩,
          ⟨p.dme_mapt, (p.mda : ℚ), .mapt⟩, ⟨s.1, (s.2 : ℚ), .sdf 1⟩,
          ⟨p.dme_thr, (p.elevation : ℚ), .thr⟩] := by
        rw [sortedFixes,
          show uniqueFixes (fixes0 p) = fixes0 p by
            rw [hfix]
            simp [uniqueFixes, upsert, hFS, hFM, hFT, hSM, hST, hMT],
          hfix]
        simp [List.insertionSort, List.orderedInsert, distGe, h1.le, h2.le, h3.le,
          h4.le, not_le.mpr hsm']
      refine rowAt_congr p { p with sdfs := [] } dme rfl rfl rfl ?_ ?_ ?_
      · rw [matchingFix, matchingFix, hsort, hsort']
        exact findD_middle_skip _
          ([⟨p.dme_faf, (p.tod_alt : ℚ), .faf⟩, ⟨p.dme_mapt, (p.mda : ℚ), .mapt⟩] :
            List Fix)
          ([⟨p.dme_thr, (p.elevation : ℚ), .thr⟩] : List Fix)
          (⟨s.1, (s.2 : ℚ), .sdf 1⟩ : Fix) (by exact hSno)
      · refine ⟨⟨p.dme_faf, (p.tod_alt : ℚ), .faf⟩, ?_, ?_⟩
        · rw [aboveFix, hsort, findD_cons_pos _ _ _ (by exact hle)]
        · rw [aboveFix, hsort', findD_cons_pos _ _ _ (by exact hle)]
      · refine ⟨⟨p.dme_thr, (p.elevation : ℚ), .thr⟩, ?_, ?_⟩
        · rw [belowFix, hsort,
            show ([⟨p.dme_faf, (p.tod_alt : ℚ), .faf⟩, ⟨p.dme_mapt, (p.mda : ℚ), .mapt⟩,
              ⟨s.1, (s.2 : ℚ), .sdf 1⟩, ⟨p.dme_thr, (p.elevation : ℚ), .thr⟩] :
                List Fix).reverse =
              [⟨p.dme_thr, (p.elevation : ℚ), .thr⟩, ⟨s.1, (s.2 : ℚ), .sdf 1⟩,
                ⟨p.dme_mapt, (p.mda : ℚ), .mapt⟩, ⟨p.dme_faf, (p.tod_alt : ℚ), .faf⟩]
              from rfl,
            findD_cons_pos _ _ _ (by exact hge)]
        · rw [belowFix, hsort',
            show ([⟨p.dme_faf, (p.tod_alt : ℚ), .faf⟩, ⟨p.dme_mapt, (p.mda : ℚ), .mapt⟩,
              ⟨p.dme_thr, (p.elevation : ℚ), .thr⟩] : List Fix).reverse =
              [⟨p.dme_thr, (p.elevation : ℚ), .thr⟩, ⟨p.dme_mapt, (p.mda : ℚ), .mapt⟩,
                ⟨p.dme_faf, (p.tod_alt : ℚ), .faf⟩] from rfl,
            findD_cons_pos _ _ _ (by exact hge)]
    · -- the step-down fix sorts between FAF and MAPt
      have hsort : sortedFixes p = [⟨p.dme_faf, (p.tod_alt : ℚ), .faf⟩,
          ⟨s.1, (s.2 : ℚ), .sdf 1⟩, ⟨p.dme_mapt, (p.mda : ℚ), .mapt⟩,
          ⟨p.dme_thr, (p.elevation : ℚ), .thr⟩] := by
        rw [sortedFixes,
          show uniqueFixes (fixes0 p) = fixes0 p by
            rw [hfix]
            simp [uniqueFixes, upsert, hFS, hFM, hFT, hSM, hST, hMT],
          hfix]
        simp [List.insertionSort, List.orderedInsert, distGe, h1.le, h2.le, h3.le,
          h4.le, hsm.le]
      refine rowAt_congr p { p with sdfs := [] } dme rfl rfl rfl ?_ ?_ ?_
      · rw [matchingFix, matchingFix, hsort, hsort']
        exact findD_middle_skip _ ([⟨p.dme_faf, (p.tod_alt : ℚ), .faf⟩] : List Fix)
          ([⟨p.dme_mapt, (p.mda : ℚ), .mapt⟩, ⟨p.dme_thr, (p.elevation : ℚ), .thr⟩] :
            List Fix)
          (⟨s.1, (s.2 : ℚ), .sdf 1⟩ : Fix) (by exact hSno)
      · refine ⟨⟨p.dme_faf, (p.tod_alt : ℚ), .faf⟩, ?_, ?_⟩
        · rw [aboveFix, hsort, findD_cons_pos _ _ _ (by exact hle)]
        · rw [aboveFix, hsort', findD_cons_pos _ _ _ (by exact hle)]
      · refine ⟨⟨p.dme_thr, (p.elevation : ℚ), .thr⟩, ?_, ?_⟩
        · rw [belowFix, hsort,
            show ([⟨p.dme_faf, (p.tod_alt : ℚ), .faf⟩, ⟨s.1, (s.2 : ℚ), .sdf 1⟩,
              ⟨p.dme_mapt, (p.mda : ℚ), .mapt⟩, ⟨p.dme_thr, (p.elevation : ℚ), .thr⟩] :
                List Fix).reverse =
              [⟨p.dme_thr, (p.elevation : ℚ), .thr⟩, ⟨p.dme_mapt, (p.mda : ℚ), .mapt⟩,
                ⟨s.1, (s.2 : ℚ), .sdf 1⟩, ⟨p.dme_faf, (p.tod_alt : ℚ), .faf⟩] from rfl,
            findD_cons_pos _ _ _ (by exact hge)]
        · rw [belowFix, hsort',
            show ([⟨p.dme_faf, (p.tod_alt : ℚ), .faf⟩, ⟨p.dme_mapt, (p.mda : ℚ), .mapt⟩,
              ⟨p.dme_thr, (p.elevation : ℚ), .thr⟩] : List Fix).reverse =
              [⟨p.dme_thr, (p.elevation : ℚ), .thr⟩, ⟨p.dme_mapt, (p.mda : ℚ), .mapt⟩,
                ⟨p.dme_faf, (p.tod_alt : ℚ), .faf⟩] from rfl,
            findD_cons_pos _ _ _ (by exact hge)]
  unfold dmeTable
  rw [hkeq, List.map_congr_left hrow]

/-- Witness for c10_no_influence at pC10: step-down fix at 2.0 NM / 900 ft,
    at least 0.01 NM from every grid point. -/
theorem c10_no_influence_witness :
    pC10.sdfs = [((2 : ℚ), (900 : ℤ))] ∧
    pC10.dme_thr < pC10.dme_mapt ∧ pC10.dme_mapt < pC10.dme_faf ∧
    pC10.dme_thr < (2 : ℚ) ∧ (2 : ℚ) < pC10.dme_faf ∧
    List.Pairwise (fun a b => round2 a ≠ round2 b)
      [pC10.dme_faf, (2 : ℚ), pC10.dme_mapt, pC10.dme_thr] ∧
    (∀ dme ∈ dmePoints pC10, 1 / 100 ≤ |(2 : ℚ) - dme|) ∧
    (dmeTable pC10 = dmeTable { pC10 with sdfs := [] } ∧
      ∀ r ∈ dmeTable pC10, r.label ≠ .sdf 1) := by
  have hgrid : ∀ dme ∈ dmePoints pC10, 1 / 100 ≤ |(2 : ℚ) - dme| := by
    intro x hx
    rw [pC10_dmePoints] at hx
    simp only [List.mem_cons, List.not_mem_nil, or_false] at hx
    rcases hx with rfl | rfl | rfl <;> norm_num [abs_of_pos, abs_of_neg]
  have hkeys : List.Pairwise (fun a b => round2 a ≠ round2 b)
      [pC10.dme_faf, (2 : ℚ), pC10.dme_mapt, pC10.dme_thr] := by
    norm_num [List.pairwise_cons, List.forall_mem_cons, pC10, round2, rhe, round_eq]
  exact ⟨rfl, by norm_num [pC10], by norm_num [pC10], by norm_num [pC10],
    by norm_num [pC10], hkeys, hgrid,
    c10_no_influence pC10 ((2 : ℚ), (900 : ℤ)) rfl (by norm_num [pC10])
      (by norm_num [pC10]) (by norm_num [pC10]) (by norm_num [pC10]) hkeys hgrid⟩

end DmeCdfa
